import Mathlib

/-!
Verification of the runtime I/O abstraction layer (`src/libstd/rt/rtio.rs`).

The source file is interface-only: a set of trait declarations (`EventLoop`,
`IoFactory`, the `Rtio*` resource-handle traits) plus the concrete
`LocalIo` access broker.  We embed it in two layers:

* a *signature model*: each trait method is transcribed as a `MethodSig`
  (name, self mode, argument types, return shape), faithful to the Rust
  declaration, so that claims about the shape of the contract (which
  operations return `Result<_, IoError>`, which consume `~self`, how the
  Unix listener/acceptor pair compares with the TCP pair) become decidable
  statements over these tables;
* *behavioural models*: the implemented body of `LocalIo::borrow` /
  `LocalIo::maybe_raise` is embedded as functions over a minimal task
  state, and the documented-but-unimplemented semantics (remote-callback
  delivery, `CloseBehavior`, consuming `listen`) are embedded as small
  state machines.
-/

namespace Rtio

/-! ## Rust types appearing in the rtio interface -/

/-- The Rust types that occur in the signatures of `rtio.rs`.  Owned boxes
(`~T`) and borrowed references are erased to the underlying type; `~[T]`
becomes `list T`. -/
inductive RustTy where
  | unit
  | bool_
  | uint
  | int_
  | u64
  | i64
  | cInt
  | pidT
  | str
  | socketAddr
  | ipAddr
  | cString
  | path
  | fileStat
  | addrInfoHint
  | addrInfo
  | fileMode
  | fileAccess
  | filePermission
  | seekStyle
  | processConfig
  | processExit
  | signum
  | closeBehavior
  | ioFactory
  | callbackObj
  | procOnce
  | pausableIdleCallback
  | remoteCallback
  | tcpStream
  | tcpListener
  | tcpAcceptor
  | udpSocket
  | unixListener
  | unixAcceptor
  | fileStream
  | timer
  | process
  | pipe
  | tty
  | signal
  | bufMut
  | buf
  | port (t : RustTy)
  | chan (t : RustTy)
  | option (t : RustTy)
  | list (t : RustTy)
  | pair (a b : RustTy)
deriving DecidableEq, Repr

/-- Return shape of a trait method: either the value is returned directly
(`plain t`), or the method returns `Result<t, IoError>` (`ioResult t`). -/
inductive Ret where
  | plain (t : RustTy)
  | ioResult (t : RustTy)
deriving DecidableEq, Repr

/-- `true` exactly when the return shape is `Result<_, IoError>`. -/
def Ret.isResult : Ret → Bool
  | .plain _ => false
  | .ioResult _ => true

/-- How a trait method takes its receiver. -/
inductive SelfMode where
  | refMut
  | refImm
  | owned
deriving DecidableEq, Repr

/-- One trait-method signature, transcribed from the Rust declaration. -/
structure MethodSig where
  name : String
  selfMode : SelfMode
  args : List RustTy
  ret : Ret
deriving DecidableEq, Repr

/-! ## The `IoFactory` trait (source lines 144-187) -/

/-- The 26 methods of `pub trait IoFactory`, in source order. -/
def ioFactoryMethods : List MethodSig := [
  ⟨"tcp_connect", .refMut, [.socketAddr], .ioResult .tcpStream⟩,
  ⟨"tcp_bind", .refMut, [.socketAddr], .ioResult .tcpListener⟩,
  ⟨"udp_bind", .refMut, [.socketAddr], .ioResult .udpSocket⟩,
  ⟨"unix_bind", .refMut, [.cString], .ioResult .unixListener⟩,
  ⟨"unix_connect", .refMut, [.cString], .ioResult .pipe⟩,
  ⟨"get_host_addresses", .refMut,
    [.option .str, .option .str, .option .addrInfoHint],
    .ioResult (.list .addrInfo)⟩,
  ⟨"fs_from_raw_fd", .refMut, [.cInt, .closeBehavior], .plain .fileStream⟩,
  ⟨"fs_open", .refMut, [.cString, .fileMode, .fileAccess],
    .ioResult .fileStream⟩,
  ⟨"fs_unlink", .refMut, [.cString], .ioResult .unit⟩,
  ⟨"fs_stat", .refMut, [.cString], .ioResult .fileStat⟩,
  ⟨"fs_mkdir", .refMut, [.cString, .filePermission], .ioResult .unit⟩,
  ⟨"fs_chmod", .refMut, [.cString, .filePermission], .ioResult .unit⟩,
  ⟨"fs_rmdir", .refMut, [.cString], .ioResult .unit⟩,
  ⟨"fs_rename", .refMut, [.cString, .cString], .ioResult .unit⟩,
  ⟨"fs_readdir", .refMut, [.cString, .cInt], .ioResult (.list .path)⟩,
  ⟨"fs_lstat", .refMut, [.cString], .ioResult .fileStat⟩,
  ⟨"fs_chown", .refMut, [.cString, .int_, .int_], .ioResult .unit⟩,
  ⟨"fs_readlink", .refMut, [.cString], .ioResult .path⟩,
  ⟨"fs_symlink", .refMut, [.cString, .cString], .ioResult .unit⟩,
  ⟨"fs_link", .refMut, [.cString, .cString], .ioResult .unit⟩,
  ⟨"fs_utime", .refMut, [.cString, .u64, .u64], .ioResult .unit⟩,
  ⟨"timer_init", .refMut, [], .ioResult .timer⟩,
  ⟨"spawn", .refMut, [.processConfig],
    .ioResult (.pair .process (.list (.option .pipe)))⟩,
  ⟨"pipe_open", .refMut, [.cInt], .ioResult .pipe⟩,
  ⟨"tty_open", .refMut, [.cInt, .bool_], .ioResult .tty⟩,
  ⟨"signal", .refMut, [.signum, .chan .signum], .ioResult .signal⟩]

/-! ## The `EventLoop` trait (source lines 36-45) -/

/-- The methods of `pub trait EventLoop`, in source order. -/
def eventLoopMethods : List MethodSig := [
  ⟨"run", .refMut, [], .plain .unit⟩,
  ⟨"callback", .refMut, [.procOnce], .plain .unit⟩,
  ⟨"pausable_idle_callback", .refMut, [.callbackObj],
    .plain .pausableIdleCallback⟩,
  ⟨"remote_callback", .refMut, [.callbackObj], .plain .remoteCallback⟩,
  ⟨"io", .refMut, [], .plain (.option .ioFactory)⟩,
  ⟨"has_active_io", .refImm, [], .plain .bool_⟩]

/-! ## Resource-handle traits used by the claims -/

/-- `pub trait RtioSocket` (source lines 210-212): the socket-naming
capability shared by the TCP listener, acceptor, stream and UDP socket. -/
def rtioSocketMethods : List MethodSig :=
  [⟨"socket_name", .refMut, [], .ioResult .socketAddr⟩]

/-- The method declared directly in `pub trait RtioTcpListener` (source
lines 189-191). `listen` takes `~self`: it consumes the listener. -/
def rtioTcpListenerOwnMethods : List MethodSig :=
  [⟨"listen", .owned, [], .ioResult .tcpAcceptor⟩]

/-- Every operation exposed by a TCP listener: its supertrait
`RtioSocket`'s methods followed by its own. -/
def rtioTcpListenerAllMethods : List MethodSig :=
  rtioSocketMethods ++ rtioTcpListenerOwnMethods

/-- The methods declared directly in `pub trait RtioTcpAcceptor` (source
lines 193-197). -/
def rtioTcpAcceptorOwnMethods : List MethodSig := [
  ⟨"accept", .refMut, [], .ioResult .tcpStream⟩,
  ⟨"accept_simultaneously", .refMut, [], .ioResult .unit⟩,
  ⟨"dont_accept_simultaneously", .refMut, [], .ioResult .unit⟩]

/-- Every operation exposed by a TCP acceptor: its supertrait
`RtioSocket`'s methods followed by its own. -/
def rtioTcpAcceptorAllMethods : List MethodSig :=
  rtioSocketMethods ++ rtioTcpAcceptorOwnMethods

/-- `pub trait RtioUnixListener` (source lines 263-265).  Unlike
`RtioTcpListener` it has no `RtioSocket` supertrait, so these are all of
its operations. -/
def rtioUnixListenerAllMethods : List MethodSig :=
  [⟨"listen", .owned, [], .ioResult .unixAcceptor⟩]

/-- `pub trait RtioUnixAcceptor` (source lines 267-269).  Unlike
`RtioTcpAcceptor` it has no `RtioSocket` supertrait and no
simultaneous-accept toggles, so this is its entire operation set. -/
def rtioUnixAcceptorAllMethods : List MethodSig :=
  [⟨"accept", .refMut, [], .ioResult .pipe⟩]

/-- `pub trait RtioTimer` (source lines 233-237). -/
def rtioTimerMethods : List MethodSig := [
  ⟨"sleep", .refMut, [.u64], .plain .unit⟩,
  ⟨"oneshot", .refMut, [.u64], .plain (.port .unit)⟩,
  ⟨"period", .refMut, [.u64], .plain (.port .unit)⟩]

/-- `pub trait RtioProcess` (source lines 251-255). -/
def rtioProcessMethods : List MethodSig := [
  ⟨"id", .refImm, [], .plain .pidT⟩,
  ⟨"kill", .refMut, [.int_], .ioResult .unit⟩,
  ⟨"wait", .refMut, [], .plain .processExit⟩]

/-- `pub trait RtioTTY` (source lines 271-277). -/
def rtioTTYMethods : List MethodSig := [
  ⟨"read", .refMut, [.bufMut], .ioResult .uint⟩,
  ⟨"write", .refMut, [.buf], .ioResult .unit⟩,
  ⟨"set_raw", .refMut, [.bool_], .ioResult .unit⟩,
  ⟨"get_winsize", .refMut, [], .ioResult (.pair .int_ .int_)⟩,
  ⟨"isatty", .refImm, [], .plain .bool_⟩]

/-- `pub trait RtioPipe` (source lines 257-261). -/
def rtioPipeMethods : List MethodSig := [
  ⟨"read", .refMut, [.bufMut], .ioResult .uint⟩,
  ⟨"write", .refMut, [.buf], .ioResult .unit⟩,
  ⟨"clone", .refImm, [], .plain .pipe⟩]

/-! ## Errors

The `IoError` type lives in `io/mod.rs`, outside this interface file; the
spec describes it as a structured failure value (kind + platform detail)
with four kinds. -/

/-- Modelled from the spec: the error taxonomy of §7 — `io::IoErrorKind`
is declared in `io/mod.rs`, not in `rtio.rs`.  `PlatformError` wraps an
OS-level error code. -/
inductive IoErrorKind where
  | platformError (osCode : Int)
  | ioUnavailable
  | resolutionError
  | processSpawnError
deriving DecidableEq, Repr

/-- Modelled from the spec: `io::IoError`, "a structured failure value
(kind + platform detail) returned instead of raised" — declared in
`io/mod.rs`, not in `rtio.rs`. -/
structure IoError where
  kind : IoErrorKind
  detail : Option String
deriving DecidableEq, Repr

/-- Modelled from the spec: `io::standard_error`, which `maybe_raise`
calls to synthesize `IoError{kind=IoUnavailable}` — declared in
`io/mod.rs`, not in `rtio.rs`. -/
def standard_error (kind : IoErrorKind) : IoError := ⟨kind, none⟩

/-! ## The `LocalIo` access broker (source lines 83-142)

`LocalIo<'a>` wraps `&'a mut IoFactory`.  We model a factory reference by
the identity (a `Nat`) of the factory it points to, and the current task
by the factory reference it has attached, if any. -/

/-- `pub struct LocalIo<'a> { priv factory: &'a mut IoFactory }`: the
borrow token, holding a mutable reference to the active factory
(represented by the factory's identity). -/
structure LocalIo where
  factory : Nat
deriving DecidableEq, Repr

/-- Modelled from the spec: the execution context (`rt::task::Task`, not
under `src/`) "owns at most one attached I/O Factory reference at a
time"; only that attachment matters to `LocalIo`. -/
structure Task where
  ioFactoryRef : Option Nat
deriving DecidableEq, Repr

/-- Modelled from the spec: `Task::local_io` (in `rt/task.rs`, not under
`src/`) returns a borrow of the task's attached I/O services when
present. -/
def Task.local_io (t : Task) : Option LocalIo :=
  t.ioFactoryRef.map (fun f => ⟨f⟩)

/-- `LocalIo::new(io)`: wraps a factory reference. -/
def LocalIo.new (f : Nat) : LocalIo := ⟨f⟩

/-- `LocalIo::borrow()` (source lines 98-118): takes the task, maps
`local_io()` through `cast::transmute_copy` (which duplicates the borrow
instead of taking it — the FIXME(#11053) block), and puts the task back
unchanged.  Returned: the optional borrow token and the task as
`Local::put` stores it back. -/
def LocalIo.borrow (t : Task) : Option LocalIo × Task :=
  (t.local_io.map (fun tok => tok), t)

/-- `LocalIo::get()` (source lines 135-141): returns the underlying
factory reference (via `transmute_copy` of the stored `&mut IoFactory`). -/
def LocalIo.get (io : LocalIo) : Nat := io.factory

/-- `IoResult<T> = Result<T, IoError>`. -/
abbrev IoResult (α : Type) : Type := Except IoError α

/-- `LocalIo::maybe_raise(f)` (source lines 120-127): borrow the local
I/O; on `None` return `Err(io::standard_error(io::IoUnavailable))`,
otherwise apply `f` to the factory obtained through `get()`. -/
def LocalIo.maybe_raise {α : Type} (t : Task) (f : Nat → IoResult α) :
    IoResult α :=
  match (LocalIo.borrow t).1 with
  | none => .error (standard_error .ioUnavailable)
  | some io => f io.get

/-! ## The `spawn` result (source lines 180-181)

`fn spawn(&mut self, config: ProcessConfig)
    -> Result<(~RtioProcess, ~[Option<~RtioPipe>]), IoError>` -/

/-- A process handle as returned by `spawn` (an `~RtioProcess` trait
object, identified by its pid). -/
structure ProcessHandle where
  pid : Nat
deriving DecidableEq, Repr

/-- A pipe handle as returned by `spawn` (an `~RtioPipe` trait object). -/
structure PipeHandle where
  descriptor : Nat
deriving DecidableEq, Repr

/-- The return type of `IoFactory::spawn`: `Result<(~RtioProcess,
~[Option<~RtioPipe>]), IoError>`. -/
abbrev SpawnResult : Type := Except IoError (ProcessHandle × List (Option PipeHandle))

/-- The process handle carried by a `spawn` result, if any. -/
def spawnProcessOf : SpawnResult → Option ProcessHandle
  | .error _ => none
  | .ok (p, _) => some p

/-- The stdio pipe-handle list carried by a `spawn` result, if any. -/
def spawnPipesOf : SpawnResult → Option (List (Option PipeHandle))
  | .error _ => none
  | .ok (_, ps) => some ps

/-- The error carried by a `spawn` result, if any. -/
def spawnErrorOf : SpawnResult → Option IoError
  | .error e => some e
  | .ok _ => none

/-! ## Consuming `listen()` (source lines 189-191 and 263-269)

`fn listen(~self) -> Result<~RtioTcpAcceptor, IoError>` takes the
listener by value: after `listen` the listener value has been moved and
no further operation can be invoked on it.  We model the lifecycle of one
listener value as a state machine in which `listen` transitions the value
to a `consumed` state in which no operation is enabled. -/

/-- Lifecycle state of a single listener value. -/
inductive ListenerStage where
  | live
  | consumed
deriving DecidableEq, Repr

/-- Operations invocable on a TCP listener value: `socket_name` from the
`RtioSocket` supertrait, and the consuming `listen`. -/
inductive TcpListenerOp where
  | socketName
  | listen
deriving DecidableEq, Repr

/-- Operations invocable on a Unix listener value: only the consuming
`listen` (no `RtioSocket` supertrait). -/
inductive UnixListenerOp where
  | listen
deriving DecidableEq, Repr

/-- One step of a TCP listener value's lifecycle.  `listen` takes
`~self`, so it is only invocable while the value is live and moves it to
`consumed`; a moved value admits no operation at all. -/
def tcpListenerStep : ListenerStage → TcpListenerOp → Option ListenerStage
  | .live, .socketName => some .live
  | .live, .listen => some .consumed
  | .consumed, _ => none

/-- One step of a Unix listener value's lifecycle. -/
def unixListenerStep : ListenerStage → UnixListenerOp → Option ListenerStage
  | .live, .listen => some .consumed
  | .consumed, _ => none

/-- Run a sequence of operations on a TCP listener value; `none` when
some operation was invoked on an already-moved value (which the type
system of the source rejects). -/
def tcpListenerRun : ListenerStage → List TcpListenerOp → Option ListenerStage
  | s, [] => some s
  | s, op :: ops =>
    match tcpListenerStep s op with
    | none => none
    | some s' => tcpListenerRun s' ops

/-- Run a sequence of operations on a Unix listener value. -/
def unixListenerRun : ListenerStage → List UnixListenerOp → Option ListenerStage
  | s, [] => some s
  | s, op :: ops =>
    match unixListenerStep s op with
    | none => none
    | some s' => unixListenerRun s' ops

/-! ## Remote callbacks (source lines 47-55)

`RemoteCallback::fire` is documented in the source but implemented only
in the backends, which are out of scope; the spec (§4.4, §8, §9) fixes
the delivery contract and suggests the single-slot pending-flag model. -/

/-- Modelled from the spec: the observable state of one remote-callback
handle — the backends implementing `RemoteCallback` are not under
`src/`.  Per §9 the handle keeps a single-slot pending flag; we also
count `fire` calls and deliveries to state the contract. -/
structure RcState where
  pending : Bool
  destroyed : Bool
  fires : Nat
  deliveries : Nat
deriving DecidableEq, Repr

/-- Events in the life of a remote-callback handle: a `fire()` call from
some execution context, a delivery of the registered callback by the
loop, and destruction of the handle. -/
inductive RcEvent where
  | fire
  | deliver
  | destroy
deriving DecidableEq, Repr

/-- Modelled from the spec: one step of the remote-callback state
machine.  `fire` sets the pending flag (coalescing: repeated fires leave
one flag); the loop delivers only when the flag is set, clearing it;
destruction "triggers one final delivery" and is terminal. -/
def rcStep : RcState → RcEvent → Option RcState
  | s, .fire =>
    if s.destroyed then none
    else some { s with pending := true, fires := s.fires + 1 }
  | s, .deliver =>
    if s.destroyed then none
    else if s.pending then
      some { s with pending := false, deliveries := s.deliveries + 1 }
    else none
  | s, .destroy =>
    if s.destroyed then none
    else some { pending := false, destroyed := true, fires := s.fires,
                deliveries := s.deliveries + 1 }

/-- The state of a freshly created remote-callback handle. -/
def rcInit : RcState := ⟨false, false, 0, 0⟩

/-- Run a sequence of events on a remote-callback handle. -/
def rcRun : RcState → List RcEvent → Option RcState
  | s, [] => some s
  | s, e :: es =>
    match rcStep s e with
    | none => none
    | some s' => rcRun s' es

/-! ## `CloseBehavior` (source lines 70-81) -/

/-- `pub enum CloseBehavior`: what to do with the underlying descriptor
when the handle is destroyed. -/
inductive CloseBehavior where
  | dontClose
  | closeSynchronously
  | closeAsynchronously
deriving DecidableEq, Repr

/-- Observable events during destruction of a handle: the moment
destruction returns to the owning execution context, and the completion
of the close syscall on the underlying descriptor. -/
inductive DestroyEvent where
  | destroyReturn
  | closeComplete
deriving DecidableEq, Repr

/-- Modelled from the spec: the ordered event trace produced by
destroying a handle under each `CloseBehavior` — destruction itself is
implemented by the backends, not under `src/`.  `CloseSynchronously`
blocks the task until the close completes before destruction returns;
`CloseAsynchronously` returns immediately and closes later on the event
loop; `DontClose` never closes the descriptor. -/
def destroyTrace : CloseBehavior → List DestroyEvent
  | .closeSynchronously => [.closeComplete, .destroyReturn]
  | .closeAsynchronously => [.destroyReturn, .closeComplete]
  | .dontClose => [.destroyReturn]

/-- Modelled from the spec: whether the underlying descriptor is still
open (usable via its raw identifier) after destruction has settled. -/
def descriptorOpenAfterDestroy : CloseBehavior → Bool
  | .dontClose => true
  | .closeSynchronously => false
  | .closeAsynchronously => false

/-! ## A model event loop (source lines 36-45)

`EventLoop::io` returns `Option<&'a mut IoFactory>`: "Not all event
loops may provide one." -/

/-- The state of an event loop visible through the `EventLoop` trait:
the optional I/O services reachable via `io()` (a factory reference, or
none for backends without asynchronous I/O), and the `has_active_io`
flag. -/
structure EventLoopModel where
  ioServices : Option Nat
  hasActiveIo : Bool
deriving DecidableEq, Repr

/-- An event loop without asynchronous I/O services: `io()` yields
`None`. -/
def noIoEventLoop : EventLoopModel := ⟨none, false⟩

/-! ## Comparing the Unix pair with the TCP pair -/

/-- The type substitution under which the Unix listener/acceptor pair
would mirror the TCP pair: each TCP handle type replaced by its Unix
counterpart (in particular the connection handle `RtioTcpStream` by
`RtioPipe`). -/
def unixTyOfTcpTy : RustTy → RustTy
  | .tcpStream => .pipe
  | .tcpListener => .unixListener
  | .tcpAcceptor => .unixAcceptor
  | t => t

/-- Apply `unixTyOfTcpTy` throughout a method signature. -/
def unixSigOfTcpSig (m : MethodSig) : MethodSig :=
  { m with
    args := m.args.map unixTyOfTcpTy,
    ret := match m.ret with
           | .plain t => .plain (unixTyOfTcpTy t)
           | .ioResult t => .ioResult (unixTyOfTcpTy t) }

/-! ## Helper lemmas -/

/-- A moved (consumed) TCP listener value admits no further operation:
a successful run from `consumed` must be empty. -/
theorem tcpListenerRun_consumed_nil {ops : List TcpListenerOp}
    {s2 : ListenerStage} (h : tcpListenerRun .consumed ops = some s2) :
    ops = [] := by
  cases ops with
  | nil => rfl
  | cons op tl => cases op <;> simp [tcpListenerRun, tcpListenerStep] at h

/-- A moved (consumed) Unix listener value admits no further operation. -/
theorem unixListenerRun_consumed_nil {ops : List UnixListenerOp}
    {s2 : ListenerStage} (h : unixListenerRun .consumed ops = some s2) :
    ops = [] := by
  cases ops with
  | nil => rfl
  | cons op tl =>
    cases op
    simp [unixListenerRun, unixListenerStep] at h

/-- Any successful run on a live TCP listener value invokes `listen` at
most once. -/
theorem tcpListenerRun_count :
    ∀ (ops : List TcpListenerOp) (s2 : ListenerStage),
      tcpListenerRun .live ops = some s2 →
      ops.count TcpListenerOp.listen ≤ 1 := by
  intro ops
  induction ops with
  | nil => intro s2 h; simp
  | cons op tl ih =>
    intro s2 h
    cases op with
    | socketName =>
      simp [tcpListenerRun, tcpListenerStep] at h
      simpa [List.count_cons] using ih s2 h
    | listen =>
      simp [tcpListenerRun, tcpListenerStep] at h
      have htl := tcpListenerRun_consumed_nil h
      subst htl
      simp [List.count_cons]

/-- Any successful run on a live Unix listener value invokes `listen` at
most once. -/
theorem unixListenerRun_count :
    ∀ (ops : List UnixListenerOp) (s2 : ListenerStage),
      unixListenerRun .live ops = some s2 →
      ops.count UnixListenerOp.listen ≤ 1 := by
  intro ops
  induction ops with
  | nil => intro s2 h; simp
  | cons op tl ih =>
    intro s2 h
    cases op with
    | listen =>
      simp [unixListenerRun, unixListenerStep] at h
      have htl := unixListenerRun_consumed_nil h
      subst htl
      simp [List.count_cons]

/-- The invariant maintained by the remote-callback state machine: while
the handle is alive, a handle that was never fired has no deliveries and
no pending flag; once destroyed, at least one delivery happened, and a
never-fired handle received exactly the one final delivery. -/
def rcInv (s : RcState) : Prop :=
  if s.destroyed then
    1 ≤ s.deliveries ∧ (s.fires = 0 → s.deliveries = 1)
  else
    s.fires = 0 → s.deliveries = 0 ∧ s.pending = false

/-- One step of the remote-callback machine preserves `rcInv`. -/
theorem rcStep_inv {s s2 : RcState} {e : RcEvent}
    (hstep : rcStep s e = some s2) (hinv : rcInv s) : rcInv s2 := by
  by_cases hd : s.destroyed
  · cases e <;> simp [rcStep, hd] at hstep
  · unfold rcInv at hinv
    rw [if_neg hd] at hinv
    cases e with
    | fire =>
      simp [rcStep, hd] at hstep
      subst hstep
      unfold rcInv
      simp [hd]
    | deliver =>
      by_cases hp : s.pending
      · simp [rcStep, hd, hp] at hstep
        subst hstep
        unfold rcInv
        simp only [hd, if_false]
        intro h0
        exact absurd (hinv h0).2 (by simp [hp])
      · simp [rcStep, hd, hp] at hstep
    | destroy =>
      simp [rcStep, hd] at hstep
      subst hstep
      unfold rcInv
      simp only [if_true]
      refine ⟨by omega, fun h0 => ?_⟩
      have := (hinv h0).1
      omega

/-- Running any event sequence preserves `rcInv`. -/
theorem rcRun_inv {tr : List RcEvent} :
    ∀ {s s2 : RcState}, rcRun s tr = some s2 → rcInv s → rcInv s2 := by
  induction tr with
  | nil =>
    intro s s2 h hinv
    simp [rcRun] at h
    exact h ▸ hinv
  | cons e tl ih =>
    intro s s2 h hinv
    cases hstep : rcStep s e with
    | none => simp [rcRun, hstep] at h
    | some s1 =>
      simp only [rcRun, hstep] at h
      exact ih h (rcStep_inv hstep hinv)

/-! ## The claims -/

/-- C1: the claim says at most one live `LocalIoBorrow` exists per
execution context at any time, so that no two simultaneously live tokens
grant mutable access to the same context's `IoFactory`.  The code
violates this, as its own FIXME(#11053) comment admits: `borrow()` puts
the task back with the factory still attached and un-taken, so a second
`borrow()` while the first token is live also succeeds, and both tokens'
`get()` reach the same factory. -/
theorem borrow_double_alias :
    (LocalIo.borrow ⟨some 7⟩).2 = (⟨some 7⟩ : Task) ∧
    (LocalIo.borrow ⟨some 7⟩).1 = some ⟨7⟩ ∧
    (LocalIo.borrow (LocalIo.borrow ⟨some 7⟩).2).1 = some ⟨7⟩ ∧
    (LocalIo.borrow ⟨some 7⟩).1.map LocalIo.get = some 7 ∧
    (LocalIo.borrow (LocalIo.borrow ⟨some 7⟩).2).1.map LocalIo.get = some 7 :=
  ⟨rfl, rfl, rfl, rfl, rfl⟩

/-- C2: `maybe_raise(f)` yields `IoError{kind=IoUnavailable}` exactly in
the case where `borrow()` returns `None` (no backend attached to the
current task), and otherwise forwards `f`'s result on the borrowed
factory unchanged. -/
theorem maybe_raise_spec {α : Type} (t : Task) (f : Nat → IoResult α) :
    (t.ioFactoryRef = none ∧ (LocalIo.borrow t).1 = none ∧
      LocalIo.maybe_raise t f = .error (standard_error .ioUnavailable)) ∨
    (∃ tok : LocalIo, (LocalIo.borrow t).1 = some tok ∧
      LocalIo.maybe_raise t f = f tok.get) := by
  obtain ⟨r⟩ := t
  cases r with
  | none => exact .inl ⟨rfl, rfl, rfl⟩
  | some fac => exact .inr ⟨⟨fac⟩, rfl, rfl⟩

/-- C3 (counterexample): not every `IoFactory` operation returns
`Result<_, IoError>` — the filesystem operation `fs_from_raw_fd`
(entry 6 of the trait) returns `~RtioFileStream` directly. -/
theorem facade_not_all_result :
    (ioFactoryMethods.get? 6).map (fun m => (m.name, m.ret)) =
      some ("fs_from_raw_fd", .plain .fileStream) ∧
    (ioFactoryMethods.all fun m => m.ret.isResult) = false := by
  decide

/-- C3 (amended): every `IoFactory` operation except `fs_from_raw_fd`
returns `Result<_, IoError>`; `fs_from_raw_fd`, which wraps an existing
descriptor, is the sole exception and returns its file stream directly
(it has no failure path at all in its signature). -/
theorem facade_results_except_raw_fd :
    ((ioFactoryMethods.all fun m =>
      m.name == "fs_from_raw_fd" || m.ret.isResult) = true) ∧
    (ioFactoryMethods.filter fun m => !m.ret.isResult).map MethodSig.name =
      ["fs_from_raw_fd"] := by
  decide

/-- C4: `spawn` returns `Result<(~RtioProcess, ~[Option<~RtioPipe>]),
IoError>`: on failure the result is an error carrying no process handle
and no pipe handles; on success it carries the process handle together
with the whole list of optional stdio pipe handles.  No value of the
result type pairs a process handle with an absent pipe list or vice
versa. -/
theorem spawn_all_or_nothing (r : SpawnResult) :
    ((ioFactoryMethods.get? 22).map (fun m => (m.name, m.ret)) =
      some ("spawn", .ioResult (.pair .process (.list (.option .pipe))))) ∧
    ((∃ e, r = .error e ∧ spawnProcessOf r = none ∧ spawnPipesOf r = none) ∨
     (∃ p ps, r = .ok (p, ps) ∧ spawnProcessOf r = some p ∧
       spawnPipesOf r = some ps)) := by
  refine ⟨by decide, ?_⟩
  cases r with
  | error e => exact .inl ⟨e, rfl, rfl, rfl⟩
  | ok v => exact .inr ⟨v.1, v.2, rfl, rfl, rfl⟩

/-- C5: `listen` takes `~self` for both the TCP and the Unix listener,
consuming the listener value and yielding an acceptor; in the lifecycle
model of a listener value, every well-typed operation sequence invokes
`listen` at most once — no listener is ever listened on twice. -/
theorem listen_consumes_listener :
    ((⟨"listen", .owned, [], .ioResult .tcpAcceptor⟩ : MethodSig) ∈
      rtioTcpListenerAllMethods) ∧
    ((⟨"listen", .owned, [], .ioResult .unixAcceptor⟩ : MethodSig) ∈
      rtioUnixListenerAllMethods) ∧
    (∀ (ops : List TcpListenerOp) (s2 : ListenerStage),
      tcpListenerRun .live ops = some s2 →
      ops.count TcpListenerOp.listen ≤ 1) ∧
    (∀ (ops : List UnixListenerOp) (s2 : ListenerStage),
      unixListenerRun .live ops = some s2 →
      ops.count UnixListenerOp.listen ≤ 1) :=
  ⟨by decide, by decide, tcpListenerRun_count, unixListenerRun_count⟩

/-- Witness for C5 at a concrete operation sequence: name the socket,
then listen, on a live TCP listener; listen once on a live Unix
listener. -/
theorem listen_consumes_listener_witness :
    [TcpListenerOp.socketName, .listen].count TcpListenerOp.listen ≤ 1 ∧
    [UnixListenerOp.listen].count UnixListenerOp.listen ≤ 1 :=
  ⟨listen_consumes_listener.2.2.1 [.socketName, .listen] .consumed rfl,
   listen_consumes_listener.2.2.2 [.listen] .consumed rfl⟩

/-- C6: in the remote-callback model, any complete execution (ending
with destruction of the handle) delivers the registered callback at
least once — so after one or more `fire()` calls at least one delivery
happens — and an execution with zero `fire()` calls delivers exactly
once, the final delivery triggered by destruction.  The two closed runs
exhibit the permitted coalescing (two fires, one delivery while alive)
and over-delivery (one fire, two deliveries). -/
theorem remote_callback_delivery :
    (∀ (tr : List RcEvent) (s : RcState), rcRun rcInit tr = some s →
      s.destroyed = true →
      1 ≤ s.deliveries ∧ (s.fires = 0 → s.deliveries = 1)) ∧
    rcRun rcInit [.fire, .fire, .deliver] = some ⟨false, false, 2, 1⟩ ∧
    rcRun rcInit [.fire, .deliver, .destroy] = some ⟨false, true, 1, 2⟩ := by
  refine ⟨?_, rfl, rfl⟩
  intro tr s h hd
  have hinv := rcRun_inv h (show rcInv rcInit by simp [rcInv, rcInit])
  unfold rcInv at hinv
  rw [hd] at hinv
  simpa using hinv

/-- Witness for C6 at a concrete run: destroying a freshly created
handle with zero prior fires yields exactly one delivery. -/
theorem remote_callback_delivery_witness :
    1 ≤ (⟨false, true, 0, 1⟩ : RcState).deliveries ∧
    ((⟨false, true, 0, 1⟩ : RcState).fires = 0 →
      (⟨false, true, 0, 1⟩ : RcState).deliveries = 1) :=
  remote_callback_delivery.1 [.destroy] ⟨false, true, 0, 1⟩ rfl rfl

/-- C7: under `CloseSynchronously` the close syscall completes before
destruction returns to the owning execution context; under
`CloseAsynchronously` destruction returns first and the close completes
later on the event loop; under `DontClose` no close ever happens and the
descriptor remains open (usable via its raw identifier). -/
theorem close_behavior_semantics :
    (destroyTrace .closeSynchronously).indexOf DestroyEvent.closeComplete <
      (destroyTrace .closeSynchronously).indexOf DestroyEvent.destroyReturn ∧
    (destroyTrace .closeAsynchronously).head? =
      some DestroyEvent.destroyReturn ∧
    DestroyEvent.closeComplete ∈ destroyTrace .closeAsynchronously ∧
    DestroyEvent.closeComplete ∉ destroyTrace .dontClose ∧
    descriptorOpenAfterDestroy .dontClose = true ∧
    descriptorOpenAfterDestroy .closeSynchronously = false ∧
    descriptorOpenAfterDestroy .closeAsynchronously = false := by
  decide

/-- C8 (counterexample): the Unix listener/acceptor pair does not expose
the same operation set as the TCP pair even after substituting Unix
handle types for TCP ones: the TCP listener and acceptor carry the
`RtioSocket` supertrait's `socket_name`, and the TCP acceptor carries
the simultaneous-accept toggles, none of which the Unix pair has. -/
theorem unix_not_same_op_set :
    rtioTcpListenerAllMethods.map unixSigOfTcpSig ≠
      rtioUnixListenerAllMethods ∧
    rtioTcpAcceptorAllMethods.map unixSigOfTcpSig ≠
      rtioUnixAcceptorAllMethods ∧
    rtioTcpListenerAllMethods.map MethodSig.name =
      ["socket_name", "listen"] ∧
    rtioUnixListenerAllMethods.map MethodSig.name = ["listen"] ∧
    rtioTcpAcceptorAllMethods.map MethodSig.name =
      ["socket_name", "accept", "accept_simultaneously",
       "dont_accept_simultaneously"] ∧
    rtioUnixAcceptorAllMethods.map MethodSig.name = ["accept"] := by
  decide

/-- C8 (amended): the Unix pair mirrors the TCP pair's core
listener-to-acceptor shape — the consuming `listen` yielding an acceptor
is the TCP signature with Unix handle types substituted, and `accept`
yields a connection handle whose type changes from TCP stream to pipe —
but the Unix pair lacks the `RtioSocket` socket-naming capability and
the TCP acceptor's simultaneous-accept toggles. -/
theorem unix_mirrors_tcp_core :
    rtioTcpListenerOwnMethods.map unixSigOfTcpSig =
      rtioUnixListenerAllMethods ∧
    (rtioTcpAcceptorOwnMethods.head?.map unixSigOfTcpSig =
      rtioUnixAcceptorAllMethods.head?) ∧
    "socket_name" ∉ rtioUnixListenerAllMethods.map MethodSig.name ∧
    "socket_name" ∉ rtioUnixAcceptorAllMethods.map MethodSig.name ∧
    "accept_simultaneously" ∉ rtioUnixAcceptorAllMethods.map MethodSig.name ∧
    "dont_accept_simultaneously" ∉
      rtioUnixAcceptorAllMethods.map MethodSig.name := by
  decide

/-- C9: `EventLoop::io()` returns an `Option` over the factory — not the
factory itself and not a `Result` — so consumers must handle its
absence; `has_active_io()` returns a plain `bool`; and a loop without
asynchronous I/O services (modelled by `noIoEventLoop`) answers `None`. -/
theorem event_loop_optional_services :
    ((eventLoopMethods.find? fun m => m.name == "io").map MethodSig.ret =
      some (.plain (.option .ioFactory))) ∧
    ((eventLoopMethods.find? fun m =>
        m.name == "has_active_io").map MethodSig.ret =
      some (.plain .bool_)) ∧
    noIoEventLoop.ioServices = none ∧
    noIoEventLoop.hasActiveIo = false := by
  decide

/-- C10: `fs_from_raw_fd`, `RtioProcess::id`, `RtioProcess::wait`,
`RtioTTY::isatty` and all three `RtioTimer` operations return their
results directly — none of their signatures has a `Result<_, IoError>`
branch, so a caller never observes a failure from any of them. -/
theorem infallible_operations :
    ((ioFactoryMethods.find? fun m =>
        m.name == "fs_from_raw_fd").map MethodSig.ret =
      some (.plain .fileStream)) ∧
    ((rtioProcessMethods.find? fun m => m.name == "id").map MethodSig.ret =
      some (.plain .pidT)) ∧
    ((rtioProcessMethods.find? fun m => m.name == "wait").map MethodSig.ret =
      some (.plain .processExit)) ∧
    ((rtioTTYMethods.find? fun m => m.name == "isatty").map MethodSig.ret =
      some (.plain .bool_)) ∧
    rtioTimerMethods.map MethodSig.ret =
      [.plain .unit, .plain (.port .unit), .plain (.port .unit)] ∧
    (rtioTimerMethods.all fun m => !m.ret.isResult) = true := by
  decide

end Rtio
